import Mathlib

/-
Verification development for the multisig coordination POC
(quocle108/wdk-multiple-sig-poc).

Shallow embedding of:
  * the replicated store's reducer (AutobaseStorageAdapter._handleOperation),
  * the in-memory reference store (MemoryStorageAdapter),
  * the coordinator operations create/propose/sign/execute of
    SafeMultisigEVM, BitcoinMultisig and SafeMultisigEVM4337, and
  * the storage capability check of MultisigManager.

External collaborators (bitcoinjs script building, Safe SDK hashing,
chain broadcast) are deterministic side-effect-free functions per the
spec's ChainAdapter contract; they are passed as explicit function
parameters, never re-implemented.  JavaScript strings are Lean
`String`s, byte buffers are `List Nat`, numbers are `Nat`/`Int`.
-/

deriving instance DecidableEq for Except

namespace MultisigPoc

/-- One entry of a proposal's `signatures` array:
`{signer, signature, signedAt}` (the Bitcoin variant stores no
`signature` field; it is modelled as the empty string there). -/
structure Sig where
  signer : String
  sigData : String
  signedAt : Nat
  deriving Repr, DecidableEq

/-- The update object passed to `updateProposalStatus` by `execute()`:
`{status, txHash, blockNumber?, executedAt, executedBy}` (`blockNumber`
is present only in the EVM variant). -/
structure StatusUpdate where
  status : String
  txHash : String
  blockNumber : Option String
  executedAt : Nat
  executedBy : String
  deriving Repr, DecidableEq

/-- A stored proposal record (union of the fields written by the EVM and
Bitcoin coordinators; fields a variant does not use are empty / none). -/
structure Proposal where
  id : String
  multisigAddress : String
  safeTxHash : String
  psbt : String
  txTo : String
  txValue : String
  txData : String
  signatures : List Sig
  status : String
  createdAt : Nat
  createdBy : String
  txHash : Option String
  blockNumber : Option String
  executedAt : Option Nat
  executedBy : Option String
  deriving Repr, DecidableEq

/-- `Object.assign(proposal, update)` for the status updates produced by
`execute()`: every key present in the update overwrites the proposal's. -/
def applyStatusUpdate (p : Proposal) (u : StatusUpdate) : Proposal :=
  { p with
    status := u.status
    txHash := some u.txHash
    blockNumber := match u.blockNumber with
      | some b => some b
      | none => p.blockNumber
    executedAt := some u.executedAt
    executedBy := some u.executedBy }

/-- A stored multisig wallet record (`saveMultisigInfo` payload). -/
structure MsInfo where
  address : String
  owners : List String
  threshold : Int
  msType : String
  network : String
  witnessScript : Option String
  createdBy : String
  createdAt : Nat
  deriving Repr, DecidableEq

/-- Key lookup in an association list (Hyperbee `get` / `Map.get`). -/
def getAssoc {α : Type} (l : List (String × α)) (k : String) : Option α :=
  match l with
  | [] => none
  | (k', v) :: t => if k' = k then some v else getAssoc t k

/-- Key update in an association list (Hyperbee `put` / `Map.set`):
overwrites in place when the key exists, appends otherwise. -/
def putAssoc {α : Type} (l : List (String × α)) (k : String) (v : α) :
    List (String × α) :=
  match l with
  | [] => [(k, v)]
  | (k', v') :: t => if k' = k then (k, v) :: t else (k', v') :: putAssoc t k v

theorem getAssoc_putAssoc_self {α : Type} (l : List (String × α)) (k : String)
    (v : α) : getAssoc (putAssoc l k v) k = some v := by
  induction l with
  | nil => simp [putAssoc, getAssoc]
  | cons hd t ih =>
    obtain ⟨k', v'⟩ := hd
    by_cases h : k' = k
    · simp [putAssoc, getAssoc, h]
    · simp [putAssoc, getAssoc, h, ih]

theorem putAssoc_putAssoc_self {α : Type} (l : List (String × α)) (k : String)
    (v w : α) : putAssoc (putAssoc l k v) k w = putAssoc l k w := by
  induction l with
  | nil => simp [putAssoc]
  | cons hd t ih =>
    obtain ⟨k', v'⟩ := hd
    by_cases h : k' = k
    · simp [putAssoc, h]
    · simp [putAssoc, h, ih]

/-- The materialized key-value view built by the replicated store.  The
Hyperbee keyspace uses disjoint prefixes `multisig:` and `proposal:`,
modelled as two separate association lists; the set of admitted writers
(Autobase's writer set) is modelled alongside. -/
structure RepView where
  multisigs : List (String × MsInfo)
  proposals : List (String × Proposal)
  writers : List String
  deriving Repr, DecidableEq

/-- The operation types appended to the shared log
(`AutobaseStorageAdapter` append payloads). -/
inductive LogOp where
  | saveMultisigInfo (data : MsInfo)
  | saveProposal (data : Proposal)
  | addSignature (proposalId : String) (signature : Sig)
  | updateStatus (proposalId : String) (update : StatusUpdate)
  | addWriter (nodeId : String) (writerKey : String)
  deriving Repr, DecidableEq

/-- Modelled from the spec: `base.addWriter` (Autobase internals are not
in this repository) admits a peer into the writer set; admitting an
already-admitted writer changes nothing. -/
def addWriterModel (ws : List String) (k : String) : List String :=
  if k ∈ ws then ws else ws ++ [k]

/-- The reducer `AutobaseStorageAdapter._handleOperation(op, view, base)`:
`SAVE_MULTISIG_INFO` and `SAVE_PROPOSAL` put the record at its key,
`ADD_SIGNATURE` pushes onto the stored proposal's `signatures` array
(no-op when the proposal is absent), `UPDATE_STATUS` merges the update
object into the stored proposal, `ADD_WRITER` admits a writer. -/
def handleOperation (op : LogOp) (view : RepView) : RepView :=
  match op with
  | .saveMultisigInfo data =>
    { view with multisigs := putAssoc view.multisigs data.address data }
  | .saveProposal data =>
    { view with proposals := putAssoc view.proposals data.id data }
  | .addSignature pid s =>
    match getAssoc view.proposals pid with
    | some p =>
      { view with proposals :=
          putAssoc view.proposals pid { p with signatures := p.signatures ++ [s] } }
    | none => view
  | .updateStatus pid u =>
    match getAssoc view.proposals pid with
    | some p =>
      { view with proposals := putAssoc view.proposals pid (applyStatusUpdate p u) }
    | none => view
  | .addWriter _ wk =>
    { view with writers := addWriterModel view.writers wk }

/-- `MemoryStorageAdapter`'s state: the `multisigs` and `proposals` maps
(value semantics: the adapter clones on read and write, so states are
plain values here). -/
structure MemStore where
  multisigs : List (String × MsInfo)
  proposals : List (String × Proposal)
  deriving Repr, DecidableEq

def MemStore.saveMultisigInfo (st : MemStore) (info : MsInfo) : MemStore :=
  { st with multisigs := putAssoc st.multisigs info.address info }

def MemStore.saveProposal (st : MemStore) (p : Proposal) : MemStore :=
  { st with proposals := putAssoc st.proposals p.id p }

def MemStore.getProposal (st : MemStore) (pid : String) : Option Proposal :=
  getAssoc st.proposals pid

/-- `MemoryStorageAdapter.updateProposalStatus`: `Object.assign` onto the
stored proposal when present, silently does nothing when absent. -/
def MemStore.updateProposalStatus (st : MemStore) (pid : String)
    (u : StatusUpdate) : MemStore :=
  match getAssoc st.proposals pid with
  | some p => { st with proposals := putAssoc st.proposals pid (applyStatusUpdate p u) }
  | none => st

/-- `MemoryStorageAdapter.addSignature`: pushes onto the stored
proposal's `signatures`, throws `Proposal not found` when absent. -/
def MemStore.addSignature (st : MemStore) (pid : String) (s : Sig) :
    Except String MemStore :=
  match getAssoc st.proposals pid with
  | some p =>
    let p' := { p with signatures := p.signatures ++ [s] }
    .ok { st with proposals := putAssoc st.proposals pid p' }
  | none => .error ("Proposal not found: " ++ pid)

/-- `toLowerCase()` on one character, for the ASCII range used by hex
addresses (embedded directly so concrete instances evaluate in the
kernel). -/
def lowerChar (c : Char) : Char :=
  if 65 ≤ c.toNat ∧ c.toNat ≤ 90 then Char.ofNat (c.toNat + 32) else c

/-- JavaScript `String.prototype.toLowerCase()` for ASCII strings. -/
def lowerStr (s : String) : String :=
  String.mk (s.data.map lowerChar)

/-- Success discriminator for embedded fallible operations. -/
def isOkB {α : Type} : Except String α → Bool
  | .ok _ => true
  | .error _ => false

/-- Outcome of the external broadcast step (`executeTransaction` /
`blockchainTransaction_broadcast`): either an accepted transaction or a
transport-level exception that propagates to the caller. -/
inductive BroadcastOutcome where
  | accepted (txHash : String) (blockNumber : Nat)
  | transportError (message : String)
  deriving Repr, DecidableEq

/-- What a successful `create()` returns: the derived address, the
owners as stored, and the threshold. -/
structure CreateResult where
  address : String
  owners : List String
  threshold : Int
  deriving Repr, DecidableEq

/-- `SafeMultisigEVM.create(owners, threshold)`: validation (at least 2
owners, `1 <= threshold <= owners.length`, local signer in owners by
case-insensitive compare) happens before the chain deployment and the
storage write; `derivedAddress` stands for the external deterministic
CREATE2 derivation, the deployment transaction is abstracted as
succeeding. -/
def safeCreate (owners : List String) (threshold : Int)
    (signerAddress derivedAddress network : String) (now : Nat)
    (st : MemStore) : Except String CreateResult × MemStore :=
  if owners.length < 2 then
    (.error "Need at least 2 owners for multisig", st)
  else if threshold < 1 ∨ (owners.length : Int) < threshold then
    (.error ("Threshold must be between 1 and " ++ toString owners.length), st)
  else if ¬ ((owners.map lowerStr).contains (lowerStr signerAddress)) then
    (.error "Signer address must be in owners list", st)
  else
    (.ok ⟨derivedAddress, owners, threshold⟩,
     st.saveMultisigInfo
       ⟨derivedAddress, owners, threshold, "safe", network, none, signerAddress, now⟩)

/-- `SafeMultisigEVM4337.create(owners, threshold)`: same shape as the
Safe variant but the owner-count check is `owners.length < 1`. -/
def evm4337Create (owners : List String) (threshold : Int)
    (signerAddress derivedAddress network : String) (now : Nat)
    (st : MemStore) : Except String CreateResult × MemStore :=
  if owners.length < 1 then
    (.error "Need at least 1 owner", st)
  else if threshold < 1 ∨ (owners.length : Int) < threshold then
    (.error ("Threshold must be between 1 and " ++ toString owners.length), st)
  else if ¬ ((owners.map lowerStr).contains (lowerStr signerAddress)) then
    (.error "Signer address must be in owners list", st)
  else
    (.ok ⟨derivedAddress, owners, threshold⟩,
     st.saveMultisigInfo
       ⟨derivedAddress, owners, threshold, "safe-4337", network, none, signerAddress, now⟩)

/-- `SafeMultisigEVM.sign(proposalId)`: loads the proposal, errors when
absent, silently returns when the local signer already appears in
`signatures` (case-insensitive), otherwise appends its signature and
persists via `saveProposal`. -/
def evmSign (st : MemStore) (pid signerAddress sigData : String) (now : Nat) :
    Except String Unit × MemStore :=
  match st.getProposal pid with
  | none => (.error ("Proposal not found: " ++ pid), st)
  | some p =>
    if p.signatures.any (fun s => lowerStr s.signer == lowerStr signerAddress) then
      (.ok (), st)
    else
      (.ok (), st.saveProposal
        { p with signatures := p.signatures ++ [⟨signerAddress, sigData, now⟩] })

/-- `BitcoinMultisig.sign(proposalId)`: loads the proposal, errors when
absent, throws `Proposal already signed by this signer` when the local
public key already appears in `signatures` (exact compare), otherwise
re-signs the PSBT and persists the appended signature entry (Bitcoin
signature entries carry no `signature` field). -/
def btcSign (st : MemStore) (pid signerPubkey newPsbt : String) (now : Nat) :
    Except String Unit × MemStore :=
  match st.getProposal pid with
  | none => (.error ("Proposal not found: " ++ pid), st)
  | some p =>
    if p.signatures.any (fun s => s.signer == signerPubkey) then
      (.error "Proposal already signed by this signer", st)
    else
      (.ok (), st.saveProposal
        { p with psbt := newPsbt
                 signatures := p.signatures ++ [⟨signerPubkey, "", now⟩] })

/-- `SafeMultisigEVM.execute(proposalId)`: not-found, then
`status != pending`, then `signatures.length < threshold` are checked in
that order before the broadcast; only an accepted broadcast updates the
stored status to `executed` (with `txHash`/`blockNumber`), a transport
error propagates and writes nothing. -/
def evmExecute (st : MemStore) (pid : String) (threshold : Nat)
    (signerAddress : String) (broadcast : BroadcastOutcome) (now : Nat) :
    Except String String × MemStore :=
  match st.getProposal pid with
  | none => (.error ("Proposal not found: " ++ pid), st)
  | some p =>
    if p.status ≠ "pending" then
      (.error ("Proposal already " ++ p.status), st)
    else if p.signatures.length < threshold then
      (.error ("Not enough signatures: " ++ toString p.signatures.length ++
        "/" ++ toString threshold), st)
    else
      match broadcast with
      | .transportError m => (.error m, st)
      | .accepted h bn =>
        (.ok h, st.updateProposalStatus pid
          ⟨"executed", h, some (toString bn), now, signerAddress⟩)

/-- `BitcoinMultisig.execute(proposalId)`: identical control flow to the
EVM variant; its status update carries no `blockNumber`. -/
def btcExecute (st : MemStore) (pid : String) (threshold : Nat)
    (signerAddress : String) (broadcast : BroadcastOutcome) (now : Nat) :
    Except String String × MemStore :=
  match st.getProposal pid with
  | none => (.error ("Proposal not found: " ++ pid), st)
  | some p =>
    if p.status ≠ "pending" then
      (.error ("Proposal already " ++ p.status), st)
    else if p.signatures.length < threshold then
      (.error ("Not enough signatures: " ++ toString p.signatures.length ++
        "/" ++ toString threshold), st)
    else
      match broadcast with
      | .transportError m => (.error m, st)
      | .accepted h _ =>
        (.ok h, st.updateProposalStatus pid
          ⟨"executed", h, none, now, signerAddress⟩)

/-- `SafeMultisigEVM.propose`: the proposal id is
`safeTxHash.slice(0, 18)` where `safeTxHash` is the external digest of
the unsigned Safe transaction (computed before any signature is
attached). -/
def evmProposalId (digest : String → String) (unsignedPayload : String) :
    String :=
  (digest unsignedPayload).take 18

/-- `BitcoinMultisig.propose`: the proposal id is
`sha256(psbt.toBase64()).hex.slice(0, 16)` computed AFTER
`psbt.signInput` attached the proposer's partial signature, so the
digested bytes are the signed PSBT serialization, not the unsigned
payload; `serialize` stands for the external `toBase64` of the PSBT
carrying the given partial signature. -/
def btcProposalId (digest : String → String)
    (serialize : String → String → String)
    (unsignedPsbt proposerSig : String) : String :=
  (digest (serialize unsignedPsbt proposerSig)).take 16

/-- The capability surface probed by `MultisigManager._isValidStorage`:
one flag per required method of the supplied storage object. -/
structure StorageOps where
  hasInit : Bool
  hasClose : Bool
  hasSaveMultisigInfo : Bool
  hasGetMultisigInfo : Bool
  hasSaveProposal : Bool
  hasGetProposal : Bool
  hasUpdateProposalStatus : Bool
  hasAddSignature : Bool
  hasExportProposal : Bool
  hasImportProposal : Bool
  deriving Repr, DecidableEq

/-- `MultisigManager._isValidStorage`: every required method present. -/
def isValidStorage (s : StorageOps) : Bool :=
  s.hasInit && s.hasClose && s.hasSaveMultisigInfo && s.hasGetMultisigInfo &&
  s.hasSaveProposal && s.hasGetProposal && s.hasUpdateProposalStatus &&
  s.hasAddSignature && s.hasExportProposal && s.hasImportProposal

/-- `MultisigManager` constructor: when a storage object is supplied and
fails the capability probe, it throws the one fixed message
`Storage must implement StorageAdapter interface`; otherwise
construction succeeds. -/
def managerNew (storage : Option StorageOps) : Except String Unit :=
  match storage with
  | none => .ok ()
  | some s =>
    if ¬ (isValidStorage s) then
      .error "Storage must implement StorageAdapter interface"
    else
      .ok ()

/-- `Buffer.compare`: lexicographic byte comparison, a strict prefix
comparing less than the longer buffer. -/
def bufCompare : List Nat → List Nat → Ordering
  | [], [] => .eq
  | [], _ :: _ => .lt
  | _ :: _, [] => .gt
  | a :: as, b :: bs =>
    if a < b then .lt else if b < a then .gt else bufCompare as bs

theorem bufCompare_eq_iff {a b : List Nat} : bufCompare a b = .eq ↔ a = b := by
  induction a generalizing b with
  | nil => cases b <;> simp [bufCompare]
  | cons x xs ih =>
    cases b with
    | nil => simp [bufCompare]
    | cons y ys =>
      by_cases hxy : x < y
      · simp [bufCompare, hxy]
        omega
      · by_cases hyx : y < x
        · simp [bufCompare, hxy, hyx]
          omega
        · have hxy' : x = y := by omega
          simp [bufCompare, hxy, hyx, hxy', ih]

theorem bufCompare_gt_iff {a b : List Nat} :
    bufCompare a b = .gt ↔ bufCompare b a = .lt := by
  induction a generalizing b with
  | nil => cases b <;> simp [bufCompare]
  | cons x xs ih =>
    cases b with
    | nil => simp [bufCompare]
    | cons y ys =>
      by_cases hxy : x < y
      · have hyx : ¬ y < x := by omega
        simp [bufCompare, hxy, hyx]
      · by_cases hyx : y < x
        · simp [bufCompare, hxy, hyx]
        · simp [bufCompare, hxy, hyx, ih]

/-- The sort order used by `create()`: `Buffer.compare` not reporting
the left buffer greater. -/
def bufLE (a b : List Nat) : Prop := bufCompare a b ≠ Ordering.gt

instance : DecidableRel bufLE := fun a b =>
  inferInstanceAs (Decidable (bufCompare a b ≠ Ordering.gt))

instance : IsTotal (List Nat) bufLE where
  total a b := by
    unfold bufLE
    cases h : bufCompare a b with
    | lt => exact Or.inl (by simp [h])
    | eq => exact Or.inl (by simp [h])
    | gt =>
      refine Or.inr ?_
      have := bufCompare_gt_iff.mp h
      simp [this]

instance : IsTrans (List Nat) bufLE where
  trans a b c hab hbc := by
    unfold bufLE at hab hbc ⊢
    induction a generalizing b c with
    | nil =>
      cases c with
      | nil => simp [bufCompare]
      | cons z zs => simp [bufCompare]
    | cons x xs ih =>
      cases b with
      | nil => simp [bufCompare] at hab
      | cons y ys =>
        cases c with
        | nil => simp [bufCompare] at hbc
        | cons z zs =>
          by_cases hxy : x < y
          · by_cases hyz : y < z
            · have hxz : x < z := by omega
              simp [bufCompare, hxz]
            · by_cases hzy : z < y
              · simp [bufCompare, hyz, hzy] at hbc
              · have hyz' : y = z := by omega
                have hxz : x < z := by omega
                simp [bufCompare, hxz]
          · by_cases hyx : y < x
            · simp [bufCompare, hxy, hyx] at hab
            · have hxy' : x = y := by omega
              by_cases hyz : y < z
              · have hxz : x < z := by omega
                simp [bufCompare, hxz]
              · by_cases hzy : z < y
                · simp [bufCompare, hyz, hzy] at hbc
                · have hyz' : y = z := by omega
                  have hxz : ¬ x < z := by omega
                  have hzx : ¬ z < x := by omega
                  simp [bufCompare, hxy, hyx] at hab
                  simp [bufCompare, hyz, hzy] at hbc
                  simp [bufCompare, hxz, hzx]
                  exact ih ys zs hab hbc

instance : IsAntisymm (List Nat) bufLE where
  antisymm a b hab hba := by
    unfold bufLE at hab hba
    have hlt : bufCompare a b ≠ .lt := by
      intro h
      exact hba (bufCompare_gt_iff.mpr h)
    cases h : bufCompare a b with
    | lt => exact absurd h hlt
    | gt => exact absurd h hab
    | eq => exact bufCompare_eq_iff.mp h

/-- `[...pubkeyBuffers].sort(Buffer.compare)`. -/
def sortPubkeys (l : List (List Nat)) : List (List Nat) :=
  List.insertionSort bufLE l

theorem sortPubkeys_eq_of_perm {l₁ l₂ : List (List Nat)} (h : l₁.Perm l₂) :
    sortPubkeys l₁ = sortPubkeys l₂ :=
  List.eq_of_perm_of_sorted
    ((List.perm_insertionSort bufLE l₁).trans
      (h.trans (List.perm_insertionSort bufLE l₂).symm))
    (List.sorted_insertionSort bufLE l₁)
    (List.sorted_insertionSort bufLE l₂)

/-- `buffer.toString('hex')`: two lowercase hex digits per byte. -/
def byteToHex (b : Nat) : String :=
  String.mk [Nat.digitChar (b / 16), Nat.digitChar (b % 16)]

def bytesToHex (l : List Nat) : String :=
  String.join (l.map byteToHex)

/-- What a successful `BitcoinMultisig.create` returns. -/
structure BtcCreateResult where
  address : String
  owners : List String
  threshold : Int
  witnessScript : List Nat
  deriving Repr, DecidableEq

/-- `BitcoinMultisig.create(owners, threshold)`: validates 2..15 owners,
`1 <= threshold <= owners.length`, 33-byte compressed keys (throwing at
the first offending key), signer key membership by byte equality; then
sorts the keys with `Buffer.compare` and builds the P2WSH multisig from
the sorted keys.  `p2msOut`/`p2wshAddr` stand for the external
deterministic bitcoinjs script and address construction; owners are
passed as already-decoded byte buffers. -/
def btcCreate (owners : List (List Nat)) (threshold : Int)
    (signerPubkey : List Nat) (signerAddress : String)
    (p2msOut : Int → List (List Nat) → List Nat)
    (p2wshAddr : List Nat → String) (network : String) (now : Nat)
    (st : MemStore) : Except String BtcCreateResult × MemStore :=
  if owners.length < 2 then
    (.error "Need at least 2 owners for multisig", st)
  else if 15 < owners.length then
    (.error "Maximum 15 owners for Bitcoin multisig", st)
  else if threshold < 1 ∨ (owners.length : Int) < threshold then
    (.error ("Threshold must be between 1 and " ++ toString owners.length), st)
  else
    match owners.find? (fun pk => pk.length != 33) with
    | some pk =>
      (.error ("Invalid public key length: " ++ toString pk.length ++
        ". Expected 33 bytes (compressed)."), st)
    | none =>
      if ¬ (owners.contains signerPubkey) then
        (.error "Signer public key must be in owners list", st)
      else
        let sorted := sortPubkeys owners
        let script := p2msOut threshold sorted
        let addr := p2wshAddr script
        let ownersHex := sorted.map bytesToHex
        (.ok ⟨addr, ownersHex, threshold, script⟩,
         st.saveMultisigInfo
           ⟨addr, ownersHex, threshold, "bitcoin-p2wsh", network,
            some (bytesToHex script), signerAddress, now⟩)

/-! Concrete records used to instantiate theorems with hypotheses. -/

/-- A signature entry by signer `A`. -/
def sigA : Sig := ⟨"A", "sa", 0⟩

/-- A pending proposal already signed once by `A`. -/
def propWithA : Proposal :=
  ⟨"p1", "m", "", "", "to", "1", "", [sigA], "pending", 0, "A",
   none, none, none, none⟩

/-- A memory store holding only `propWithA`. -/
def stEx : MemStore := ⟨[], [("p1", propWithA)]⟩

/-- An empty memory store. -/
def stEmpty : MemStore := ⟨[], []⟩

/-- C10: calling `MemoryStorageAdapter.updateProposalStatus` with a
proposalId that is not in the store completes without error and returns
the store unchanged (silent no-op), while `addSignature` with an
unknown proposalId throws `Proposal not found`. -/
theorem c10_updateStatus_unknown_is_noop (st : MemStore) (pid : String)
    (u : StatusUpdate) (s : Sig) (h : st.getProposal pid = none) :
    st.updateProposalStatus pid u = st ∧
    st.addSignature pid s = .error ("Proposal not found: " ++ pid) := by
  unfold MemStore.getProposal at h
  unfold MemStore.updateProposalStatus MemStore.addSignature
  rw [h]
  exact ⟨rfl, rfl⟩

theorem c10_witness :
    stEmpty.updateProposalStatus "p9" ⟨"executed", "h", none, 0, "A"⟩ = stEmpty ∧
    stEmpty.addSignature "p9" sigA = .error ("Proposal not found: " ++ "p9") :=
  c10_updateStatus_unknown_is_noop stEmpty "p9" ⟨"executed", "h", none, 0, "A"⟩
    sigA rfl

/-- C7: when the local signer already appears in a stored proposal's
`signatures`, a second `sign(proposalId)` is a silent no-op for
`SafeMultisigEVM` (store unchanged) and raises
`Proposal already signed by this signer` for `BitcoinMultisig` (store
unchanged); in both cases the persisted list keeps exactly the entries
it had, so a signer that appeared exactly once still appears exactly
once. -/
theorem c7_second_sign_is_noop_or_error (st : MemStore)
    (pid sa sd psbt : String) (now : Nat) (p : Proposal)
    (hp : st.getProposal pid = some p)
    (hevm : p.signatures.any (fun s => lowerStr s.signer == lowerStr sa) = true)
    (hbtc : p.signatures.any (fun s => s.signer == sa) = true) :
    evmSign st pid sa sd now = (.ok (), st) ∧
    btcSign st pid sa psbt now =
      (.error "Proposal already signed by this signer", st) ∧
    ∀ k, (p.signatures.filter (fun s => lowerStr s.signer == lowerStr sa)).length = k →
      ((evmSign st pid sa sd now).2.getProposal pid).map
        (fun q => (q.signatures.filter
          (fun s => lowerStr s.signer == lowerStr sa)).length) = some k := by
  refine ⟨?_, ?_, ?_⟩
  · simp [evmSign, hp, hevm]
  · simp [btcSign, hp, hbtc]
  · intro k hk
    simp [evmSign, hp, hevm, hk]

theorem c7_witness :
    evmSign stEx "p1" "A" "s2" 5 = (.ok (), stEx) ∧
    btcSign stEx "p1" "A" "psbt2" 5 =
      (.error "Proposal already signed by this signer", stEx) := by
  have h := c7_second_sign_is_noop_or_error stEx "p1" "A" "s2" "psbt2" 5
    propWithA (by decide) (by decide) (by decide)
  exact ⟨h.1, h.2.1⟩

/-- C8: if the broadcast step of `execute(proposalId)` raises a
transport-level error, the error is surfaced to the caller and the
store is unchanged (the proposal stays `pending` with the same
signatures), for both coordinators; the stored status becomes the
terminal `executed` only on the accepted-broadcast path. -/
theorem c8_broadcast_error_leaves_pending (st : MemStore) (pid : String)
    (thr : Nat) (sa m : String) (now : Nat) (p : Proposal)
    (hp : st.getProposal pid = some p) (hpend : p.status = "pending")
    (hsig : ¬ p.signatures.length < thr) :
    evmExecute st pid thr sa (.transportError m) now = (.error m, st) ∧
    btcExecute st pid thr sa (.transportError m) now = (.error m, st) ∧
    (∀ h bn, ((evmExecute st pid thr sa (.accepted h bn) now).2.getProposal
      pid).map Proposal.status = some "executed") ∧
    (∀ h bn, ((btcExecute st pid thr sa (.accepted h bn) now).2.getProposal
      pid).map Proposal.status = some "executed") := by
  have hp' : getAssoc st.proposals pid = some p := hp
  refine ⟨?_, ?_, ?_, ?_⟩
  · simp [evmExecute, hp, hpend, hsig]
  · simp [btcExecute, hp, hpend, hsig]
  · intro h bn
    simp [evmExecute, hp, hpend, hsig, MemStore.updateProposalStatus,
      MemStore.getProposal, hp', getAssoc_putAssoc_self, applyStatusUpdate]
  · intro h bn
    simp [btcExecute, hp, hpend, hsig, MemStore.updateProposalStatus,
      MemStore.getProposal, hp', getAssoc_putAssoc_self, applyStatusUpdate]

theorem c8_witness :
    evmExecute stEx "p1" 1 "A" (.transportError "socket hang up") 9 =
      (.error "socket hang up", stEx) ∧
    btcExecute stEx "p1" 1 "A" (.transportError "socket hang up") 9 =
      (.error "socket hang up", stEx) := by
  have h := c8_broadcast_error_leaves_pending stEx "p1" 1 "A" "socket hang up"
    9 propWithA (by decide) (by decide) (by decide)
  exact ⟨h.1, h.2.1⟩

/-- An already-executed proposal with an empty signature list. -/
def propExec : Proposal :=
  ⟨"p2", "m", "", "", "to", "1", "", [], "executed", 0, "A",
   none, none, none, none⟩

/-- A store holding only `propExec`. -/
def stExec : MemStore := ⟨[], [("p2", propExec)]⟩

/-- A pending proposal with no signatures yet. -/
def propPend : Proposal :=
  ⟨"p3", "m", "", "", "to", "1", "", [], "pending", 0, "A",
   none, none, none, none⟩

/-- A store holding only `propPend`. -/
def stPend : MemStore := ⟨[], [("p3", propPend)]⟩

/-- C4 counterexample: for a proposal whose status is already terminal
AND whose signature list is below threshold, `execute` raises the
already-finalized error, not the insufficient-signatures error the
claim promises for every under-signed proposal (the status check runs
first). -/
theorem c4_counterexample :
    propExec.signatures.length < 1 ∧
    evmExecute stExec "p2" 1 "A" (.transportError "x") 0 =
      (.error "Proposal already executed", stExec) ∧
    (evmExecute stExec "p2" 1 "A" (.transportError "x") 0).1 ≠
      .error ("Not enough signatures: " ++ toString propExec.signatures.length
        ++ "/" ++ toString 1) := by
  decide

/-- C4 (amended): `execute(proposalId)` checks the proposal status
first: a non-`pending` proposal raises the already-finalized error
whatever its signature count; a `pending` proposal whose signature list
is shorter than the threshold raises the insufficient-signatures error;
both failures return the store unchanged (same status, same
signatures), for both coordinators. -/
theorem c4_execute_failure_gates (st : MemStore) (pid : String) (thr : Nat)
    (sa : String) (bo : BroadcastOutcome) (now : Nat) (p : Proposal)
    (hp : st.getProposal pid = some p) :
    (p.status ≠ "pending" →
      evmExecute st pid thr sa bo now =
        (.error ("Proposal already " ++ p.status), st) ∧
      btcExecute st pid thr sa bo now =
        (.error ("Proposal already " ++ p.status), st)) ∧
    (p.status = "pending" → p.signatures.length < thr →
      evmExecute st pid thr sa bo now =
        (.error ("Not enough signatures: " ++ toString p.signatures.length ++
          "/" ++ toString thr), st) ∧
      btcExecute st pid thr sa bo now =
        (.error ("Not enough signatures: " ++ toString p.signatures.length ++
          "/" ++ toString thr), st)) := by
  constructor
  · intro hs
    constructor <;> simp [evmExecute, btcExecute, hp, hs]
  · intro hs hlt
    constructor <;> simp [evmExecute, btcExecute, hp, hs, hlt]

theorem c4_witness :
    evmExecute stExec "p2" 1 "A" (.transportError "x") 0 =
      (.error ("Proposal already " ++ propExec.status), stExec) ∧
    evmExecute stPend "p3" 1 "A" (.transportError "x") 0 =
      (.error ("Not enough signatures: " ++ toString propPend.signatures.length
        ++ "/" ++ toString 1), stPend) :=
  ⟨((c4_execute_failure_gates stExec "p2" 1 "A" (.transportError "x") 0
      propExec rfl).1 (by decide)).1,
   ((c4_execute_failure_gates stPend "p3" 1 "A" (.transportError "x") 0
      propPend rfl).2 rfl (by decide)).1⟩

/-- The replicated view holding only `propWithA` (signed once by
signer `A`). -/
def viewEx : RepView := ⟨[], [("p1", propWithA)], []⟩

/-- C1 counterexample: the `ADD_SIGNATURE` reducer appends without
deduplicating by signer, so replaying/redundantly appending signer
`A`'s signature leaves the merged view with two entries whose signer is
`A`. -/
theorem c1_counterexample :
    ((getAssoc ((handleOperation (.addSignature "p1" sigA)
      viewEx).proposals) "p1").map
      (fun p => (p.signatures.filter (fun s => s.signer == "A")).length)) =
      some 2 := by
  decide

/-- C1 (amended): applying two `ADD_SIGNATURE` entries for the same
proposal appends both signatures in merge order, so the merged view
holds both distinct signers' signatures; but the reducer performs no
dedup by signer identity, so a redundant entry for an already-present
signer yields duplicate entries (it does not hold that there is at most
one entry per signer). -/
theorem c1_merge_appends_both (v : RepView) (pid : String) (a b : Sig)
    (p : Proposal) (h : getAssoc v.proposals pid = some p) :
    getAssoc ((handleOperation (.addSignature pid b)
      (handleOperation (.addSignature pid a) v)).proposals) pid =
      some { p with signatures := p.signatures ++ [a, b] } ∧
    a ∈ p.signatures ++ [a, b] ∧ b ∈ p.signatures ++ [a, b] := by
  refine ⟨?_, by simp, by simp⟩
  simp [handleOperation, h, getAssoc_putAssoc_self, putAssoc_putAssoc_self]

theorem c1_witness :
    getAssoc ((handleOperation (.addSignature "p1" ⟨"B", "sb", 1⟩)
      (handleOperation (.addSignature "p1" sigA) viewEx)).proposals) "p1" =
      some { propWithA with
        signatures := propWithA.signatures ++ [sigA, ⟨"B", "sb", 1⟩] } :=
  (c1_merge_appends_both viewEx "p1" sigA ⟨"B", "sb", 1⟩ propWithA rfl).1

theorem applyStatusUpdate_idem (p : Proposal) (u : StatusUpdate) :
    applyStatusUpdate (applyStatusUpdate p u) u = applyStatusUpdate p u := by
  cases hbn : u.blockNumber <;> simp [applyStatusUpdate, hbn]

theorem addWriterModel_idem (ws : List String) (k : String) :
    addWriterModel (addWriterModel ws k) k = addWriterModel ws k := by
  by_cases h : k ∈ ws
  · simp [addWriterModel, h]
  · simp [addWriterModel, h]

/-- C2 counterexample: replaying an `ADD_SIGNATURE` entry is not
idempotent — applying the same entry twice to the view yields a
different view than applying it once (the signature is appended
again). -/
theorem c2_counterexample :
    handleOperation (.addSignature "p1" sigA)
      (handleOperation (.addSignature "p1" sigA) viewEx) ≠
      handleOperation (.addSignature "p1" sigA) viewEx := by
  decide

/-- C2 (amended): every operation type of the reducer except
`ADD_SIGNATURE` is idempotent under replay (`SAVE_MULTISIG_INFO`,
`SAVE_PROPOSAL`, `UPDATE_STATUS`, `ADD_WRITER`); `ADD_SIGNATURE` is
not: replaying it against a view holding the target proposal appends
the same signature a second time. -/
theorem c2_replay_idempotence (v : RepView) :
    (∀ d, handleOperation (.saveMultisigInfo d)
      (handleOperation (.saveMultisigInfo d) v) =
      handleOperation (.saveMultisigInfo d) v) ∧
    (∀ d, handleOperation (.saveProposal d)
      (handleOperation (.saveProposal d) v) =
      handleOperation (.saveProposal d) v) ∧
    (∀ pid u, handleOperation (.updateStatus pid u)
      (handleOperation (.updateStatus pid u) v) =
      handleOperation (.updateStatus pid u) v) ∧
    (∀ n k, handleOperation (.addWriter n k)
      (handleOperation (.addWriter n k) v) =
      handleOperation (.addWriter n k) v) ∧
    (∀ pid s p, getAssoc v.proposals pid = some p →
      getAssoc ((handleOperation (.addSignature pid s)
        (handleOperation (.addSignature pid s) v)).proposals) pid =
        some { p with signatures := p.signatures ++ [s, s] }) := by
  refine ⟨?_, ?_, ?_, ?_, ?_⟩
  · intro d
    simp [handleOperation, putAssoc_putAssoc_self]
  · intro d
    simp [handleOperation, putAssoc_putAssoc_self]
  · intro pid u
    cases h : getAssoc v.proposals pid with
    | none => simp [handleOperation, h]
    | some p =>
      simp [handleOperation, h, getAssoc_putAssoc_self,
        applyStatusUpdate_idem, putAssoc_putAssoc_self]
  · intro n k
    simp [handleOperation, addWriterModel_idem]
  · intro pid s p h
    simp [handleOperation, h, getAssoc_putAssoc_self, putAssoc_putAssoc_self]

theorem c2_witness :
    getAssoc ((handleOperation (.addSignature "p1" sigA)
      (handleOperation (.addSignature "p1" sigA) viewEx)).proposals) "p1" =
      some { propWithA with
        signatures := propWithA.signatures ++ [sigA, sigA] } :=
  (c2_replay_idempotence viewEx).2.2.2.2 "p1" sigA propWithA rfl

theorem safeCreate_ok_iff (owners : List String) (t : Int) (sa da nw : String)
    (now : Nat) (st : MemStore) :
    isOkB (safeCreate owners t sa da nw now st).1 = true ↔
      (2 ≤ owners.length ∧ 1 ≤ t ∧ t ≤ (owners.length : Int) ∧
        (owners.map lowerStr).contains (lowerStr sa) = true) := by
  unfold safeCreate
  split_ifs with h1 h2 h3 <;> simp_all [isOkB]
  all_goals omega

theorem safeCreate_error_frame (owners : List String) (t : Int)
    (sa da nw : String) (now : Nat) (st : MemStore) :
    isOkB (safeCreate owners t sa da nw now st).1 = false →
      (safeCreate owners t sa da nw now st).2 = st := by
  unfold safeCreate
  split_ifs <;> simp [isOkB]

theorem evm4337Create_ok_iff (owners : List String) (t : Int)
    (sa da nw : String) (now : Nat) (st : MemStore) :
    isOkB (evm4337Create owners t sa da nw now st).1 = true ↔
      (1 ≤ owners.length ∧ 1 ≤ t ∧ t ≤ (owners.length : Int) ∧
        (owners.map lowerStr).contains (lowerStr sa) = true) := by
  unfold evm4337Create
  split_ifs with h1 h2 h3 <;> simp_all [isOkB] <;> omega

theorem evm4337Create_error_frame (owners : List String) (t : Int)
    (sa da nw : String) (now : Nat) (st : MemStore) :
    isOkB (evm4337Create owners t sa da nw now st).1 = false →
      (evm4337Create owners t sa da nw now st).2 = st := by
  unfold evm4337Create
  split_ifs <;> simp [isOkB]

theorem btcCreate_ok_iff (owners : List (List Nat)) (t : Int)
    (spk : List Nat) (sa : String)
    (p2msOut : Int → List (List Nat) → List Nat)
    (p2wshAddr : List Nat → String) (nw : String) (now : Nat)
    (st : MemStore) :
    isOkB (btcCreate owners t spk sa p2msOut p2wshAddr nw now st).1 = true ↔
      (2 ≤ owners.length ∧ owners.length ≤ 15 ∧ 1 ≤ t ∧
        t ≤ (owners.length : Int) ∧ (∀ pk ∈ owners, pk.length = 33) ∧
        owners.contains spk = true) := by
  unfold btcCreate
  by_cases h1 : owners.length < 2
  · rw [if_pos h1]
    simp only [isOkB]
    constructor
    · intro h
      exact absurd h (by simp)
    · intro h
      omega
  rw [if_neg h1]
  by_cases h2 : 15 < owners.length
  · rw [if_pos h2]
    simp only [isOkB]
    constructor
    · intro h
      exact absurd h (by simp)
    · intro h
      omega
  rw [if_neg h2]
  by_cases h3 : t < 1 ∨ (owners.length : Int) < t
  · rw [if_pos h3]
    simp only [isOkB]
    constructor
    · intro h
      exact absurd h (by simp)
    · intro h
      omega
  rw [if_neg h3]
  cases hf : owners.find? (fun pk => pk.length != 33) with
  | some pk =>
    have hbad := List.find?_some hf
    have hmem : pk ∈ owners := List.mem_of_find?_eq_some hf
    simp only [hf, isOkB]
    constructor
    · intro h
      exact absurd h (by simp)
    · rintro ⟨_, _, _, _, hall, _⟩
      have := hall pk hmem
      simp [this] at hbad
  | none =>
    simp only [hf]
    have hall : ∀ pk ∈ owners, pk.length = 33 := by
      intro pk hpk
      have := List.find?_eq_none.mp hf pk hpk
      simpa using this
    by_cases h4 : owners.contains spk
    · rw [if_neg (by simpa using h4)]
      simp only [isOkB, true_iff]
      refine ⟨by omega, by omega, by omega, by omega, hall, by simpa using h4⟩
    · rw [if_pos (by simpa using h4)]
      simp only [isOkB]
      constructor
      · intro h
        exact absurd h (by simp)
      · rintro ⟨_, _, _, _, _, hc⟩
        exact (h4 (by simpa using hc)).elim

theorem btcCreate_error_frame (owners : List (List Nat)) (t : Int)
    (spk : List Nat) (sa : String)
    (p2msOut : Int → List (List Nat) → List Nat)
    (p2wshAddr : List Nat → String) (nw : String) (now : Nat)
    (st : MemStore) :
    isOkB (btcCreate owners t spk sa p2msOut p2wshAddr nw now st).1 = false →
      (btcCreate owners t spk sa p2msOut p2wshAddr nw now st).2 = st := by
  unfold btcCreate
  split_ifs <;> (try cases owners.find? (fun pk => pk.length != 33)) <;>
    simp [isOkB]

/-- C3 counterexample: `SafeMultisigEVM4337.create` accepts a
single-owner wallet (its guard is `owners.length < 1`), so `create`
succeeds on an input the claim requires to fail (`n = 1 < 2`). -/
theorem c3_counterexample :
    isOkB (evm4337Create ["0xaa"] 1 "0xAA" "d" "sepolia" 0 stEmpty).1 = true ∧
    (["0xaa"] : List String).length < 2 := by
  decide

/-- C3 (amended): create validation is variant-dependent.
`SafeMultisigEVM.create(owners, t)` passes validation iff
`2 ≤ n ∧ 1 ≤ t ≤ n ∧ signer ∈ owners` (case-insensitive);
`SafeMultisigEVM4337.create` requires only `1 ≤ n`;
`BitcoinMultisig.create` additionally requires `n ≤ 15` and every key
to be 33 bytes, with signer membership by byte equality.  Every
validation failure raises before any storage write (store returned
unchanged). -/
theorem c3_create_validation (owners : List String) (t : Int)
    (sa da nw : String) (now : Nat) (st : MemStore)
    (bowners : List (List Nat)) (bt : Int) (spk : List Nat) (bsa : String)
    (p2msOut : Int → List (List Nat) → List Nat)
    (p2wshAddr : List Nat → String) :
    (isOkB (safeCreate owners t sa da nw now st).1 = true ↔
      (2 ≤ owners.length ∧ 1 ≤ t ∧ t ≤ (owners.length : Int) ∧
        (owners.map lowerStr).contains (lowerStr sa) = true)) ∧
    (isOkB (safeCreate owners t sa da nw now st).1 = false →
      (safeCreate owners t sa da nw now st).2 = st) ∧
    (isOkB (evm4337Create owners t sa da nw now st).1 = true ↔
      (1 ≤ owners.length ∧ 1 ≤ t ∧ t ≤ (owners.length : Int) ∧
        (owners.map lowerStr).contains (lowerStr sa) = true)) ∧
    (isOkB (evm4337Create owners t sa da nw now st).1 = false →
      (evm4337Create owners t sa da nw now st).2 = st) ∧
    (isOkB (btcCreate bowners bt spk bsa p2msOut p2wshAddr nw now st).1 = true ↔
      (2 ≤ bowners.length ∧ bowners.length ≤ 15 ∧ 1 ≤ bt ∧
        bt ≤ (bowners.length : Int) ∧ (∀ pk ∈ bowners, pk.length = 33) ∧
        bowners.contains spk = true)) ∧
    (isOkB (btcCreate bowners bt spk bsa p2msOut p2wshAddr nw now st).1 = false →
      (btcCreate bowners bt spk bsa p2msOut p2wshAddr nw now st).2 = st) :=
  ⟨safeCreate_ok_iff owners t sa da nw now st,
   safeCreate_error_frame owners t sa da nw now st,
   evm4337Create_ok_iff owners t sa da nw now st,
   evm4337Create_error_frame owners t sa da nw now st,
   btcCreate_ok_iff bowners bt spk bsa p2msOut p2wshAddr nw now st,
   btcCreate_error_frame bowners bt spk bsa p2msOut p2wshAddr nw now st⟩

theorem c3_witness :
    isOkB (safeCreate ["0xaa", "0xbb"] 1 "0xAA" "d" "n" 0 stEmpty).1 = true ∧
    (safeCreate ["0xaa"] 1 "0xaa" "d" "n" 0 stEmpty).2 = stEmpty := by
  have h := c3_create_validation ["0xaa", "0xbb"] 1 "0xAA" "d" "n" 0 stEmpty
    [] 1 [] "x" (fun _ _ => []) (fun _ => "")
  have h' := c3_create_validation ["0xaa"] 1 "0xaa" "d" "n" 0 stEmpty
    [] 1 [] "x" (fun _ _ => []) (fun _ => "")
  exact ⟨h.1.mpr (by decide), h'.2.1 (by decide)⟩

/-- The two probe targets of the C6 counterexample: a storage object
missing only `init`, and one missing only `close`. -/
def opsMissingInit : StorageOps :=
  ⟨false, true, true, true, true, true, true, true, true, true⟩

def opsMissingClose : StorageOps :=
  ⟨true, false, true, true, true, true, true, true, true, true⟩

/-- C6 counterexample: two storage objects with different missing
operations produce the identical constructor error — the one fixed
message `Storage must implement StorageAdapter interface` — so the
raised error does not name the missing operation(s) as the claim
requires. -/
theorem c6_counterexample :
    opsMissingInit.hasInit = false ∧ opsMissingInit.hasClose = true ∧
    opsMissingClose.hasClose = false ∧ opsMissingClose.hasInit = true ∧
    managerNew (some opsMissingInit) =
      .error "Storage must implement StorageAdapter interface" ∧
    managerNew (some opsMissingInit) = managerNew (some opsMissingClose) := by
  decide

/-- C6 (amended): the constructor does fail fast — construction throws
immediately iff the supplied storage lacks one of the ten required
operations, and succeeds when all are present — but the error is the
single generic message `Storage must implement StorageAdapter
interface`, which names no missing operation. -/
theorem c6_capability_check (s : StorageOps) :
    (managerNew (some s) = .ok () ↔ isValidStorage s = true) ∧
    (isValidStorage s = true ↔
      (s.hasInit = true ∧ s.hasClose = true ∧ s.hasSaveMultisigInfo = true ∧
       s.hasGetMultisigInfo = true ∧ s.hasSaveProposal = true ∧
       s.hasGetProposal = true ∧ s.hasUpdateProposalStatus = true ∧
       s.hasAddSignature = true ∧ s.hasExportProposal = true ∧
       s.hasImportProposal = true)) ∧
    (isValidStorage s = false →
      managerNew (some s) =
        .error "Storage must implement StorageAdapter interface") := by
  obtain ⟨a, b, c, d, e, f, g, h, i, j⟩ := s
  revert a b c d e f g h i j
  decide

theorem c6_witness :
    managerNew (some opsMissingInit) =
      .error "Storage must implement StorageAdapter interface" :=
  (c6_capability_check opsMissingInit).2.2 (by decide)

/-- The identity digest, used to instantiate the external-hash
parameters at concrete inputs. -/
def idDigest : String → String := fun s => s

/-- An injective serialization of (unsigned PSBT, partial signature),
standing in for `psbt.toBase64()` after `signInput`. -/
def concatSerialize : String → String → String := fun u s => u ++ "|" ++ s

/-- C5 counterexample: for `BitcoinMultisig.propose` the digested bytes
are the PSBT carrying the proposer's partial signature, so two propose
calls over the byte-identical unsigned PSBT but with different proposer
signatures receive different proposal ids (here with a collision-free
digest model). -/
theorem c5_counterexample :
    btcProposalId idDigest concatSerialize "psbt0" "sigOfA" ≠
      btcProposalId idDigest concatSerialize "psbt0" "sigOfB" := by
  decide

/-- C5 (amended): the proposal id is a deterministic fixed-length
prefix of a digest, ids differing only where the truncated digests
differ; for `SafeMultisigEVM` the digested bytes are the unsigned Safe
transaction (18-char prefix), but for `BitcoinMultisig` they are the
PSBT serialization that already carries the proposer's partial
signature (16-char prefix), so byte-identical unsigned payloads from
different proposers can yield different ids. -/
theorem c5_proposal_id_determinism (digest : String → String)
    (serialize : String → String → String) :
    (∀ p q, digest p = digest q →
      evmProposalId digest p = evmProposalId digest q) ∧
    (∀ p q, (digest p).take 18 ≠ (digest q).take 18 →
      evmProposalId digest p ≠ evmProposalId digest q) ∧
    (∀ u₁ s₁ u₂ s₂, serialize u₁ s₁ = serialize u₂ s₂ →
      btcProposalId digest serialize u₁ s₁ =
        btcProposalId digest serialize u₂ s₂) ∧
    (∀ u₁ s₁ u₂ s₂,
      (digest (serialize u₁ s₁)).take 16 ≠ (digest (serialize u₂ s₂)).take 16 →
      btcProposalId digest serialize u₁ s₁ ≠
        btcProposalId digest serialize u₂ s₂) := by
  refine ⟨?_, ?_, ?_, ?_⟩
  · intro p q h
    simp [evmProposalId, h]
  · intro p q h
    simpa [evmProposalId] using h
  · intro u₁ s₁ u₂ s₂ h
    simp [btcProposalId, h]
  · intro u₁ s₁ u₂ s₂ h
    simpa [btcProposalId] using h

theorem c5_witness :
    btcProposalId idDigest concatSerialize "u1" "s1" ≠
      btcProposalId idDigest concatSerialize "u2" "s2" :=
  (c5_proposal_id_determinism idDigest concatSerialize).2.2.2 "u1" "s1" "u2"
    "s2" (by decide)

theorem btcCreate_of_valid (owners : List (List Nat)) (t : Int)
    (spk : List Nat) (sa : String)
    (p2msOut : Int → List (List Nat) → List Nat)
    (p2wshAddr : List Nat → String) (nw : String) (now : Nat) (st : MemStore)
    (hlen2 : 2 ≤ owners.length) (hlen15 : owners.length ≤ 15)
    (ht1 : 1 ≤ t) (htn : t ≤ (owners.length : Int))
    (h33 : ∀ pk ∈ owners, pk.length = 33) (hmem : spk ∈ owners) :
    btcCreate owners t spk sa p2msOut p2wshAddr nw now st =
      (.ok ⟨p2wshAddr (p2msOut t (sortPubkeys owners)),
            (sortPubkeys owners).map bytesToHex, t,
            p2msOut t (sortPubkeys owners)⟩,
       st.saveMultisigInfo
         ⟨p2wshAddr (p2msOut t (sortPubkeys owners)),
          (sortPubkeys owners).map bytesToHex, t, "bitcoin-p2wsh", nw,
          some (bytesToHex (p2msOut t (sortPubkeys owners))), sa, now⟩) := by
  have hf : owners.find? (fun pk => pk.length != 33) = none := by
    rw [List.find?_eq_none]
    intro x hx
    simp [h33 x hx]
  have hc : owners.contains spk = true := List.elem_iff.mpr hmem
  unfold btcCreate
  rw [if_neg (by omega), if_neg (by omega), if_neg (by omega), hf,
    if_neg (by simpa using hmem)]

/-- C9: `BitcoinMultisig.create` is invariant under permutation of its
owners argument — for valid input (2..15 compressed 33-byte keys
containing the signer's, threshold in range) the keys are sorted with
`Buffer.compare` before the multisig script is built, so any
permutation of the same owner multiset with the same threshold yields
the same address, the same witness script, and the same stored owners
list (and the call succeeds). -/
theorem c9_btcCreate_perm_invariant (owners₁ owners₂ : List (List Nat))
    (t : Int) (spk : List Nat) (sa : String)
    (p2msOut : Int → List (List Nat) → List Nat)
    (p2wshAddr : List Nat → String) (nw : String) (now : Nat) (st : MemStore)
    (hperm : owners₁.Perm owners₂)
    (hlen2 : 2 ≤ owners₁.length) (hlen15 : owners₁.length ≤ 15)
    (ht1 : 1 ≤ t) (htn : t ≤ (owners₁.length : Int))
    (h33 : ∀ pk ∈ owners₁, pk.length = 33) (hmem : spk ∈ owners₁) :
    btcCreate owners₁ t spk sa p2msOut p2wshAddr nw now st =
      btcCreate owners₂ t spk sa p2msOut p2wshAddr nw now st ∧
    isOkB (btcCreate owners₁ t spk sa p2msOut p2wshAddr nw now st).1 =
      true := by
  have hlen := hperm.length_eq
  have h33b : ∀ pk ∈ owners₂, pk.length = 33 := fun pk hpk =>
    h33 pk (hperm.mem_iff.mpr hpk)
  have hmem2 : spk ∈ owners₂ := hperm.subset hmem
  have e1 := btcCreate_of_valid owners₁ t spk sa p2msOut p2wshAddr nw now st
    hlen2 hlen15 ht1 htn h33 hmem
  have e2 := btcCreate_of_valid owners₂ t spk sa p2msOut p2wshAddr nw now st
    (by omega) (by omega) ht1 (by omega) h33b hmem2
  constructor
  · rw [e1, e2, sortPubkeys_eq_of_perm hperm]
  · rw [e1]
    rfl

/-- A 33-byte compressed public key (the signer's, in the witness). -/
def keyA : List Nat := 2 :: List.replicate 32 0

/-- A second 33-byte compressed public key. -/
def keyB : List Nat := 3 :: List.replicate 32 0

theorem c9_witness :
    btcCreate [keyA, keyB] 1 keyA "addrA" (fun _ pks => pks.flatten)
      (fun _ => "wsh") "bitcoin" 0 stEmpty =
    btcCreate [keyB, keyA] 1 keyA "addrA" (fun _ pks => pks.flatten)
      (fun _ => "wsh") "bitcoin" 0 stEmpty :=
  (c9_btcCreate_perm_invariant [keyA, keyB] [keyB, keyA] 1 keyA "addrA"
    (fun _ pks => pks.flatten) (fun _ => "wsh") "bitcoin" 0 stEmpty
    (List.Perm.swap keyB keyA []) (by decide) (by decide) (by decide)
    (by decide) (by decide) (by decide)).1

end MultisigPoc
